import Mathlib

/-!
Verification of the wibe-crawler tools API (src/tools-api/main.py).

The development embeds the output-normalization layer of the service:

* a small regular-expression engine faithful to the Python re semantics
  (leftmost match, left-to-right alternation, lazy and greedy quantifiers
  over character classes, capture groups, findall continuation) restricted
  to the constructs the source patterns actually use;
* the per-tool output parsers, translated line by line from the source,
  with the fallible Python operations (int conversion) modelled in Option;
* the command executor and the per-endpoint exit-code policies.
-/

namespace ToolsApi

/-! ## Regular expression engine -/

/-- Regular expressions, restricted to the constructs used by the source
patterns: character classes, literal strings (optionally case-insensitive),
concatenation, alternation, greedy option, lazy and greedy star and plus over
a character class, capture groups, the dollar anchor (end of string or before
a final newline) and the end-of-string anchor. -/
inductive RE where
  | eps : RE
  | ch (p : Char → Bool) : RE
  | str (l : List Char) (ci : Bool) : RE
  | cat (a b : RE) : RE
  | alt (a b : RE) : RE
  | opt (r : RE) : RE
  | starL (p : Char → Bool) : RE
  | starG (p : Char → Bool) : RE
  | plusL (p : Char → Bool) : RE
  | plusG (p : Char → Bool) : RE
  | group (n : Nat) (r : RE) : RE
  | dollar : RE
  | endZ : RE

/-- Capture-group bindings, most recent first. -/
abbrev Groups := List (Nat × List Char)

/-- Value of group n, if bound. -/
def getG (g : Groups) (n : Nat) : Option (List Char) :=
  (g.find? (fun q => q.1 == n)).map (fun q => q.2)

/-- Value of group n, empty when unbound (Python findall yields the empty
string for an unmatched group). -/
def getGrp (g : Groups) (n : Nat) : List Char :=
  (getG g n).getD []

/-- Character comparison of a literal: case-insensitive when ci is set. -/
def ciEq (ci : Bool) (c p : Char) : Bool :=
  if ci then c.toLower == p.toLower else c == p

/-- Consume a literal, case-insensitively when ci is set. -/
def stripPre : List Char → Bool → List Char → Option (List Char)
  | [], _, s => some s
  | _ :: _, _, [] => none
  | p :: ps, ci, c :: cs =>
    if ciEq ci c p then stripPre ps ci cs else none

/-- The suffixes reachable by consuming a (possibly empty) run of characters
satisfying p, shortest consumption first: the enumeration order of a lazy
star. Reversing gives the greedy order. -/
def lazyStar (p : Char → Bool) : List Char → List (List Char)
  | [] => [[]]
  | c :: r => (c :: r) :: (if p c then lazyStar p r else [])

/-- Feed every intermediate state of the left regex into the continuation of
a concatenation, preserving the backtracking order. -/
def catResults (f : List Char → Groups → List (List Char × Groups)) :
    List (List Char × Groups) → List (List Char × Groups)
  | [] => []
  | q :: qs => f q.1 q.2 ++ catResults f qs

/-- All ways a regex can match a prefix of the input, as (remaining suffix,
capture bindings) pairs, in Python backtracking order: the head of the list
is the match Python's engine commits to. -/
def mres : RE → List Char → Groups → List (List Char × Groups)
  | .eps => fun s g => [(s, g)]
  | .ch p => fun s g =>
    match s with
    | [] => []
    | c :: r => if p c then [(r, g)] else []
  | .str l ci => fun s g =>
    match stripPre l ci s with
    | some r => [(r, g)]
    | none => []
  | .cat a b => fun s g => catResults (mres b) (mres a s g)
  | .alt a b => fun s g => mres a s g ++ mres b s g
  | .opt r => fun s g => mres r s g ++ [(s, g)]
  | .starL p => fun s g => (lazyStar p s).map (fun t => (t, g))
  | .starG p => fun s g => ((lazyStar p s).reverse).map (fun t => (t, g))
  | .plusL p => fun s g =>
    match s with
    | [] => []
    | c :: r => if p c then (lazyStar p r).map (fun t => (t, g)) else []
  | .plusG p => fun s g =>
    match s with
    | [] => []
    | c :: r => if p c then ((lazyStar p r).reverse).map (fun t => (t, g)) else []
  | .group n r => fun s g =>
    (mres r s g).map (fun q => (q.1, (n, s.take (s.length - q.1.length)) :: q.2))
  | .dollar => fun s g => if s = [] ∨ s = ['\n'] then [(s, g)] else []
  | .endZ => fun s g => if s = [] then [(s, g)] else []

/-- A committed match: its captures, the suffix where it starts and the
suffix after it. -/
structure MRes where
  groups : Groups
  startSuffix : List Char
  endSuffix : List Char

/-- Leftmost match: try each start position from the left, committing to the
first backtracking success, as Python re.search does. -/
def searchFull (re : RE) : List Char → Option MRes
  | [] =>
    match (mres re [] []).head? with
    | some q => some ⟨q.2, [], q.1⟩
    | none => none
  | c :: t =>
    match (mres re (c :: t) []).head? with
    | some q => some ⟨q.2, c :: t, q.1⟩
    | none => searchFull re t

/-- Capture bindings of the leftmost match, as Python re.search. -/
def search (re : RE) (s : List Char) : Option Groups :=
  (searchFull re s).map (fun m => m.groups)

/-- Position after a match from which findall continues: past the match, or
one further when the match was empty. -/
def nextPos (m : MRes) : List Char :=
  if m.endSuffix.length = m.startSuffix.length
  then m.startSuffix.drop 1 else m.endSuffix

/-- Fuelled loop of findall. -/
def findAllF (re : RE) : Nat → List Char → List Groups
  | 0, _ => []
  | f + 1, s =>
    match searchFull re s with
    | none => []
    | some m => m.groups :: findAllF re f (nextPos m)

/-- All non-overlapping matches from the left, as Python re.findall. -/
def findAll (re : RE) (s : List Char) : List Groups :=
  findAllF re (s.length + 1) s

/-- findall for a single-group pattern: the list of group-1 captures. -/
def findall1 (re : RE) (s : String) : List String :=
  (findAll re s.data).map (fun g => String.mk (getGrp g 1))

/-! ## Character classes used by the source patterns -/

/-- Class of a dot without DOTALL: any character but a newline. -/
def psDot (c : Char) : Bool := c != '\n'

/-- Class of a dot with DOTALL and of [\s\S]: any character. -/
def psAny (_ : Char) : Bool := true

/-- Class \d (the model restricts to ASCII digits). -/
def psDigit (c : Char) : Bool := c.isDigit

/-- Class \w (the model restricts to ASCII word characters). -/
def psWord (c : Char) : Bool := c.isAlphanum || c == '_'

/-- Class \s. -/
def psSpace (c : Char) : Bool := c.isWhitespace

/-- Class [^0-9]. -/
def psNotDigit (c : Char) : Bool := !c.isDigit

/-- Class [^;]. -/
def psNotSemi (c : Char) : Bool := c != ';'

/-- Class [^\s]. -/
def psNotSpace (c : Char) : Bool := !c.isWhitespace

/-- The literal character s under IGNORECASE. -/
def psS (c : Char) : Bool := c.toLower == 's'

/-! ## Pattern constructors -/

/-- Case-sensitive literal. -/
def rstr (s : String) : RE := .str s.data false

/-- Case-insensitive literal. -/
def rstrCI (s : String) : RE := .str s.data true

/-- Concatenation of a pattern list. -/
def rcat (l : List RE) : RE := l.foldr RE.cat RE.eps

/-! ## Python string helpers -/

/-- Python substring containment (the in operator on str). -/
def pyInAux (needle : List Char) : List Char → Bool
  | [] => needle.isPrefixOf []
  | s@(_ :: t) => needle.isPrefixOf s || pyInAux needle t

/-- Python substring containment on String. -/
def pyIn (needle hay : String) : Bool := pyInAux needle.data hay.data

/-- Python str.lower (ASCII model). -/
def pyLower (s : String) : String := String.mk (s.data.map Char.toLower)

/-- Python str.strip(): drop whitespace from both ends. -/
def pyStrip (s : String) : String :=
  String.mk
    (((s.data.dropWhile Char.isWhitespace).reverse.dropWhile
      Char.isWhitespace).reverse)

/-- Python str.startswith. -/
def pyStartsWith (pre s : String) : Bool := pre.data.isPrefixOf s.data

/-- Accumulator loop of pySplitWS. -/
def splitWSAux : List Char → List Char → List String
  | [], acc => if acc = [] then [] else [String.mk acc.reverse]
  | c :: r, acc =>
    if c.isWhitespace then
      if acc = [] then splitWSAux r []
      else String.mk acc.reverse :: splitWSAux r []
    else splitWSAux r (c :: acc)

/-- Python str.split() with no argument: split on whitespace runs,
discarding empty fields. -/
def pySplitWS (s : String) : List String := splitWSAux s.data []

/-- Accumulator loop of pySplitNL. -/
def splitNLAux : List Char → List Char → List String
  | [], acc => [String.mk acc.reverse]
  | c :: r, acc =>
    if c = '\n' then String.mk acc.reverse :: splitNLAux r []
    else splitNLAux r (c :: acc)

/-- Python str.split with a newline separator. -/
def pySplitNL (s : String) : List String := splitNLAux s.data []

/-- Python int() on the digit-only strings the source regexes produce:
defined exactly on non-empty all-digit strings (the reachable domain),
none models a raised ValueError. -/
def pyInt? (s : String) : Option Nat :=
  if s.data ≠ [] ∧ s.data.all Char.isDigit
  then some (s.data.foldl (fun n c => n * 10 + (c.toNat - 48)) 0)
  else none

/-! ## The source patterns

Each definition mirrors one pattern literal of src/tools-api/main.py; the
Python pattern is quoted in the doc comment. -/

/-- Pattern "Nmap scan report for (.+?)(?:\n|$)" (main.py line 97). -/
def hostPattern : RE :=
  rcat [rstr "Nmap scan report for ", .group 1 (.plusL psDot),
    .alt (.ch (fun c => c == '\n')) .dollar]

/-- Pattern "(\d+)/(\w+)\s+(\w+)\s+(.+?)(?:\n|$)" (main.py line 101). -/
def portPattern : RE :=
  rcat [.group 1 (.plusG psDigit), .ch (fun c => c == '/'),
    .group 2 (.plusG psWord), .plusG psSpace, .group 3 (.plusG psWord),
    .plusG psSpace, .group 4 (.plusL psDot),
    .alt (.ch (fun c => c == '\n')) .dollar]

/-- Pattern "Parameter: (.+?) \((.+?)\)" (main.py line 139). -/
def sqlInjPattern : RE :=
  rcat [rstr "Parameter: ", .group 1 (.plusL psDot), rstr " (",
    .group 2 (.plusL psDot), rstr ")"]

/-- Pattern "available databases \[(\d+)\]:(.*?)(?:\n\n|\Z)" with DOTALL
(main.py line 146). -/
def sqlDbPattern : RE :=
  rcat [rstr "available databases [", .group 1 (.plusG psDigit), rstr "]:",
    .group 2 (.starL psAny), .alt (rstr "\n\n") .endZ]

/-- Pattern "\[\*\] (.+)" (main.py line 149). -/
def sqlDbItemPattern : RE :=
  rcat [rstr "[*] ", .group 1 (.plusG psDot)]

/-- Pattern "Testing: (.+)" (main.py line 164). -/
def niktoTargetPattern : RE :=
  rcat [rstr "Testing: ", .group 1 (.plusG psDot)]

/-- Pattern "Server: (.+)" (main.py line 170). -/
def niktoServerPattern : RE :=
  rcat [rstr "Server: ", .group 1 (.plusG psDot)]

/-- Pattern "\+ (.+)" (main.py line 176). -/
def niktoFindingPattern : RE :=
  rcat [rstr "+ ", .group 1 (.plusG psDot)]

/-- Pattern "Server:\s+(.+)" (main.py line 191). -/
def nslookupServerPattern : RE :=
  rcat [rstr "Server:", .plusG psSpace, .group 1 (.plusG psDot)]

/-- Pattern "Address(?:es)?:\s+(.+)" (main.py line 197). -/
def nslookupAddressPattern : RE :=
  rcat [rstr "Address", .opt (rstr "es"), rstr ":", .plusG psSpace,
    .group 1 (.plusG psDot)]

/-- Pattern "Name:\s+(.+)" (main.py line 202). -/
def nslookupNamePattern : RE :=
  rcat [rstr "Name:", .plusG psSpace, .group 1 (.plusG psDot)]

/-- Pattern "(?:Found|Detected) XSS at: (.+?)(?:\n|$)" with IGNORECASE
(main.py line 221). -/
def xssVulnPattern : RE :=
  rcat [.alt (rstrCI "Found") (rstrCI "Detected"), rstrCI " XSS at: ",
    .group 1 (.plusL psDot), .alt (.ch (fun c => c == '\n')) .dollar]

/-- Pattern "(?:Payload|Tested)(?::|\\s+with)\\s+([^\n]+)" with IGNORECASE
(main.py line 226).  In this raw string the doubled backslashes are regex
escapes for a literal backslash, so \\s+ matches one backslash followed by a
run of the letter s. -/
def xssPayloadPattern : RE :=
  rcat [.alt (rstrCI "Payload") (rstrCI "Tested"),
    .alt (rstr ":") (rcat [.ch (fun c => c == '\\'), .plusG psS, rstrCI "with"]),
    .ch (fun c => c == '\\'), .plusG psS, .group 1 (.plusG psDot)]

/-- Pattern "(?:Testing|Scanning).*?(?:endpoint|url|parameter).*?:\\s*([^\n]+)"
with IGNORECASE (main.py line 231); as above \\s* is a literal backslash
followed by a run of the letter s. -/
def xssEndpointPattern : RE :=
  rcat [.alt (rstrCI "Testing") (rstrCI "Scanning"), .starL psDot,
    .alt (rstrCI "endpoint") (.alt (rstrCI "url") (rstrCI "parameter")),
    .starL psDot, .ch (fun c => c == ':'),
    .ch (fun c => c == '\\'), .starG psS, .group 1 (.plusG psDot)]

/-- Pattern "(?:WordPress|Version)[^0-9]*([0-9]+\.[0-9]+(?:\.[0-9]+)?)" with
IGNORECASE (main.py line 260). -/
def wpVersionPattern : RE :=
  rcat [.alt (rstrCI "WordPress") (rstrCI "Version"), .starG psNotDigit,
    .group 1 (rcat [.plusG psDigit, .ch (fun c => c == '.'), .plusG psDigit,
      .opt (rcat [.ch (fun c => c == '.'), .plusG psDigit])])]

/-- Pattern "(?:\[\!\]|\[!\])\s*(.+?(?:vulnerability|vulnerable|CVE)[^;]*)"
with IGNORECASE (main.py line 266). -/
def wpVulnPattern : RE :=
  rcat [.alt (rstr "[!]") (rstr "[!]"), .starG psSpace,
    .group 1 (rcat [.plusL psDot,
      .alt (rstrCI "vulnerability") (.alt (rstrCI "vulnerable") (rstrCI "CVE")),
      .starG psNotSemi])]

/-- Pattern
"(?:Plugin|plugin):\s*(.+?)\s*(?:\(|v|Ver|version)?([0-9]+\.[0-9]+[^\s]*)?.*?(?:\[|vulnerable|$)"
with IGNORECASE (main.py line 271). -/
def wpPluginPattern : RE :=
  rcat [.alt (rstrCI "Plugin") (rstrCI "plugin"), .ch (fun c => c == ':'),
    .starG psSpace, .group 1 (.plusL psDot), .starG psSpace,
    .opt (.alt (rstrCI "(") (.alt (rstrCI "v") (.alt (rstrCI "Ver") (rstrCI "version")))),
    .opt (.group 2 (rcat [.plusG psDigit, .ch (fun c => c == '.'),
      .plusG psDigit, .starG psNotSpace])),
    .starL psDot,
    .alt (rstr "[") (.alt (rstrCI "vulnerable") .dollar)]

/-- Pattern "(?:Author|User|Username):\s*(.+?)(?:\n|\s\[|\s-|$)" with
IGNORECASE (main.py line 276). -/
def wpUserPattern : RE :=
  rcat [.alt (rstrCI "Author") (.alt (rstrCI "User") (rstrCI "Username")),
    .ch (fun c => c == ':'), .starG psSpace, .group 1 (.plusL psDot),
    .alt (.ch (fun c => c == '\n'))
      (.alt (.cat (.ch psSpace) (.ch (fun c => c == '[')))
        (.alt (.cat (.ch psSpace) (.ch (fun c => c == '-'))) .dollar))]

/-- Pattern ";; QUESTION SECTION:[\s\S]*?;(.+?)\s+(\w+)\s+(\w+)"
(main.py line 300). -/
def digQuestionPattern : RE :=
  rcat [rstr ";; QUESTION SECTION:", .starL psAny, .ch (fun c => c == ';'),
    .group 1 (.plusL psDot), .plusG psSpace, .group 2 (.plusG psWord),
    .plusG psSpace, .group 3 (.plusG psWord)]

/-- Pattern ";; ANSWER SECTION:([\s\S]*?)(?:;;|\n\n)" (main.py line 310). -/
def digAnswerPattern : RE :=
  rcat [rstr ";; ANSWER SECTION:", .group 1 (.starL psAny),
    .alt (rstr ";;") (rstr "\n\n")]

/-- Pattern ";; Query time: (\d+) msec" (main.py line 326). -/
def digQueryTimePattern : RE :=
  rcat [rstr ";; Query time: ", .group 1 (.plusG psDigit), rstr " msec"]

/-- Pattern ";; SERVER: (.+)" (main.py line 332). -/
def digServerPattern : RE :=
  rcat [rstr ";; SERVER: ", .group 1 (.plusG psDot)]

/-! ## Output parsers (main.py lines 89-337)

Python's list(set(...)) enumerates a set whose iteration order the language
does not fix across interpreter processes (string hashing is randomized), so
the parsers that use it take the enumeration as a parameter sigma constrained
only by what Python guarantees: the enumeration of a list's distinct
elements, in some order. -/

/-- What Python guarantees about list(set(xs)): a duplicate-free enumeration
of exactly the elements of xs. -/
def IsSetEnum (σ : List String → List String) : Prop :=
  ∀ xs, (σ xs).Nodup ∧ ∀ a, a ∈ σ xs ↔ a ∈ xs

/-- Left-to-right effectful map: a Python list comprehension whose element
expression may raise, aborting the whole comprehension at the first failure. -/
def pyMapM {α β : Type} (f : α → Option β) : List α → Option (List β)
  | [] => some []
  | a :: l =>
    match f a with
    | none => none
    | some b => (pyMapM f l).map (fun bs => b :: bs)

/-- One entry of the nmap ports list (main.py lines 108-113). -/
structure PortEntry where
  port : Nat
  protocol : String
  state : String
  service : String
deriving Repr, DecidableEq

/-- One entry of the nmap hosts list (main.py lines 105-116). -/
structure HostEntry where
  host : String
  ports : List PortEntry
deriving Repr, DecidableEq

/-- Result of parse_nmap_output: hosts plus the optional summary status. -/
structure NmapParsed where
  hosts : List HostEntry
  summaryStatus : Option String
deriving Repr, DecidableEq

/-- Port tuple to entry: int(p[0]) may raise, hence Option
(main.py lines 108-113). -/
def portEntryOf (g : Groups) : Option PortEntry :=
  (pyInt? (String.mk (getGrp g 1))).map (fun n =>
    { port := n, protocol := String.mk (getGrp g 2),
      state := String.mk (getGrp g 3),
      service := pyStrip (String.mk (getGrp g 4)) })

/-- parse_nmap_output (main.py lines 89-122): none models an uncaught
exception from int(). The port list comprehension is evaluated only when a
host line matched, as in the source. -/
def parse_nmap_output (output : String) : Option NmapParsed :=
  let hosts := findall1 hostPattern output
  let ports := findAll portPattern output.data
  let summaryStatus := if pyIn "Host is up" output then some "up" else none
  match hosts with
  | [] => some { hosts := [], summaryStatus := summaryStatus }
  | h :: _ =>
    (pyMapM portEntryOf ports).map (fun pes =>
      { hosts := [{ host := h, ports := pes }], summaryStatus := summaryStatus })

/-- Result of parse_sqlmap_output (main.py lines 127-132); findings is never
filled by the source. -/
structure SqlmapParsed where
  vulnerable : Bool
  injection_points : List (String × String)
  databases : List String
  findings : List String
deriving Repr, DecidableEq

/-- parse_sqlmap_output (main.py lines 125-152). -/
def parse_sqlmap_output (output : String) : SqlmapParsed :=
  let vulnerable :=
    pyIn "is vulnerable" (pyLower output) || pyIn "injectable" (pyLower output)
  let injections := (findAll sqlInjPattern output.data).map (fun g =>
    (String.mk (getGrp g 1), String.mk (getGrp g 2)))
  let databases :=
    match findAll sqlDbPattern output.data with
    | [] => []
    | m :: _ =>
      (findall1 sqlDbItemPattern (String.mk (getGrp m 2))).map pyStrip
  { vulnerable := vulnerable, injection_points := injections,
    databases := databases, findings := [] }

/-- Result of parse_nikto_output (main.py lines 156-161); the server_info
dict gets its server key only on a match. -/
structure NiktoParsed where
  target : String
  findings : List String
  server : Option String
deriving Repr, DecidableEq

/-- parse_nikto_output (main.py lines 155-179). -/
def parse_nikto_output (output : String) : NiktoParsed :=
  let target :=
    match search niktoTargetPattern output.data with
    | some g => String.mk (getGrp g 1)
    | none => ""
  let server :=
    (search niktoServerPattern output.data).map (fun g => String.mk (getGrp g 1))
  let findings := (findall1 niktoFindingPattern output).map pyStrip
  { target := target, findings := findings, server := server }

/-- Result of parse_nslookup_output (main.py lines 184-188); records models
the list of name dicts by their name values. -/
structure NslookupParsed where
  server : String
  addresses : List String
  records : List String
deriving Repr, DecidableEq

/-- parse_nslookup_output (main.py lines 182-208). -/
def parse_nslookup_output (output : String) : NslookupParsed :=
  let server :=
    match search nslookupServerPattern output.data with
    | some g => pyStrip (String.mk (getGrp g 1))
    | none => ""
  let addresses := (findall1 nslookupAddressPattern output).map pyStrip
  let records := (findall1 nslookupNamePattern output).map pyStrip
  { server := server, addresses := addresses, records := records }

/-- Result of parse_xsstrike_output (main.py lines 213-218). -/
structure XssParsed where
  vulnerable : Bool
  vulnerabilities : List String
  payloads : List String
  endpoints : List String
deriving Repr, DecidableEq

/-- parse_xsstrike_output (main.py lines 211-239), parameterized by the
list(set(...)) enumeration. -/
def parse_xsstrike_output (σ : List String → List String) (output : String) :
    XssParsed :=
  let vulnerabilities := σ (findall1 xssVulnPattern output)
  let payloads := (σ (findall1 xssPayloadPattern output)).take 10
  let endpoints := (σ (findall1 xssEndpointPattern output)).take 20
  let vulnerable :=
    pyIn "vulnerable" (pyLower output) || !vulnerabilities.isEmpty
  { vulnerable := vulnerable, vulnerabilities := vulnerabilities,
    payloads := payloads, endpoints := endpoints }

/-- One plugin entry of parse_wpscan_output (main.py line 273). -/
structure WpPlugin where
  name : String
  version : String
deriving Repr, DecidableEq

/-- Result of parse_wpscan_output (main.py lines 244-253); target and themes
are never filled by the source, and the two scan_summary keys are set only
conditionally. -/
structure WpscanParsed where
  target : String
  wordpress_detected : Bool
  version : String
  vulnerabilities : List String
  plugins : List WpPlugin
  themes : List String
  users : List String
  has_vulnerabilities : Option Bool
  plugins_count : Option Nat
deriving Repr, DecidableEq

/-- parse_wpscan_output (main.py lines 242-286), parameterized by the
list(set(...)) enumeration used for users. -/
def parse_wpscan_output (σ : List String → List String) (output : String) :
    WpscanParsed :=
  let wordpress_detected :=
    pyIn "WordPress" output || pyIn "wordpress" (pyLower output)
  let version :=
    match search wpVersionPattern output.data with
    | some g => String.mk (getGrp g 1)
    | none => ""
  let vulnerabilities := ((findall1 wpVulnPattern output).map pyStrip).take 10
  let plugins := ((findAll wpPluginPattern output.data).map (fun g =>
    let v := String.mk (getGrp g 2)
    ({ name := pyStrip (String.mk (getGrp g 1)),
       version := if v ≠ "" then v else "" } : WpPlugin))).take 10
  let users :=
    (σ (((findall1 wpUserPattern output).map pyStrip).filter
      (fun u => u ≠ ""))).take 10
  { target := "", wordpress_detected := wordpress_detected, version := version,
    vulnerabilities := vulnerabilities, plugins := plugins, themes := [],
    users := users,
    has_vulnerabilities := if vulnerabilities.length > 0 then some true else none,
    plugins_count := if plugins.length > 0 then some plugins.length else none }

/-- One record of the dig answer section (main.py lines 317-323). -/
structure DigAnswer where
  name : String
  ttl : String
  cls : String
  typ : String
  data : String
deriving Repr, DecidableEq

/-- Result of parse_dig_output (main.py lines 291-297); authority and
additional are never filled by the source. -/
structure DigParsed where
  question : Option (String × String × String)
  answer : List DigAnswer
  authority : List String
  additional : List String
  queryTimeMs : Option Nat
  server : Option String
deriving Repr, DecidableEq

/-- Group 1 of the answer-section match, when the section pattern matches
(main.py lines 310-311). -/
def digAnswerSection (output : String) : Option String :=
  (search digAnswerPattern output.data).map (fun g => String.mk (getGrp g 1))

/-- The answer lines the source keeps (main.py line 313): each line of the
section, stripped, provided the stripped line is non-empty and the original
line does not start with a semicolon. -/
def answerLinesOf (sec : String) : List String :=
  (pySplitNL sec).filterMap (fun line =>
    if pyStrip line ≠ "" ∧ ¬ pyStartsWith ";" line then some (pyStrip line)
    else none)

/-- One answer line to a record (main.py lines 314-323): only lines with at
least 5 whitespace-separated columns yield a record, with data the join of
the columns from the fifth onward. -/
def mkDigAnswer (line : String) : Option DigAnswer :=
  let parts := pySplitWS line
  if 5 ≤ parts.length then
    some { name := parts.getD 0 "", ttl := parts.getD 1 "",
           cls := parts.getD 2 "", typ := parts.getD 3 "",
           data := " ".intercalate (parts.drop 4) }
  else none

/-- parse_dig_output (main.py lines 289-337): none models an uncaught
exception from int(). -/
def parse_dig_output (output : String) : Option DigParsed :=
  let question :=
    (search digQuestionPattern output.data).map (fun g =>
      (pyStrip (String.mk (getGrp g 1)), String.mk (getGrp g 2),
        String.mk (getGrp g 3)))
  let answer :=
    match digAnswerSection output with
    | none => []
    | some sec => (answerLinesOf sec).filterMap mkDigAnswer
  let server :=
    (search digServerPattern output.data).map (fun g =>
      pyStrip (String.mk (getGrp g 1)))
  match search digQueryTimePattern output.data with
  | none =>
    some { question := question, answer := answer, authority := [],
           additional := [], queryTimeMs := none, server := server }
  | some g =>
    (pyInt? (String.mk (getGrp g 1))).map (fun n =>
      { question := question, answer := answer, authority := [],
        additional := [], queryTimeMs := some n, server := server })

/-! ## Executor and endpoint policies (main.py lines 68-86 and 389-634) -/

/-- What the spawned subprocess did: ran to completion with captured
streams and exit code, exceeded the wall-clock timeout, or failed to start. -/
inductive ProcOutcome where
  | completed (out err : String) (code : Int)
  | timedOut
  | startFailure (msg : String)
deriving Repr, DecidableEq

/-- The dict run_command returns on completion (main.py lines 77-82);
the success key is derived from the exit code. -/
structure RunResult where
  stdout : String
  stderr : String
  returncode : Int
deriving Repr, DecidableEq

/-- The success key of run_command's dict: returncode == 0. -/
def RunResult.success (r : RunResult) : Bool := r.returncode == 0

/-- Outcome of an endpoint body: a JSON response, a raised HTTPException,
or an uncaught Python exception escaping the handler. -/
inductive EndpointResult (α : Type) where
  | ok (a : α)
  | httpError (status : Nat) (detail : String)
  | raised
deriving Repr, DecidableEq

/-- run_command (main.py lines 68-86): on completion returns the dict, on
subprocess.TimeoutExpired raises HTTPException 408 "Command timeout", on any
other spawn failure raises HTTPException 500. -/
def run_command : ProcOutcome → EndpointResult RunResult
  | .completed out err code => .ok { stdout := out, stderr := err, returncode := code }
  | .timedOut => .httpError 408 "Command timeout"
  | .startFailure msg =>
    .httpError 500 ("Command execution failed: " ++ msg)

/-- Response of the nmap endpoint: parsed fields plus raw_output. -/
structure NmapResponse where
  parsed : NmapParsed
  raw_output : String
deriving Repr, DecidableEq

/-- nmap_scan after run_command returned (main.py lines 410-419): non-zero
exit raises HTTPException 400 carrying stderr, otherwise the stdout is
parsed. -/
def nmap_scan (r : RunResult) : EndpointResult NmapResponse :=
  if ¬ r.success then
    .httpError 400 ("Nmap scan failed: " ++ r.stderr)
  else
    match parse_nmap_output r.stdout with
    | some p => .ok { parsed := p, raw_output := r.stdout }
    | none => .raised

/-- Response of the sqlmap endpoint. -/
structure SqlmapResponse where
  parsed : SqlmapParsed
  raw_output : String
deriving Repr, DecidableEq

/-- sqlmap_scan after run_command returned (main.py lines 439-445): the
stdout is parsed unconditionally, with no exit-code check. -/
def sqlmap_scan (r : RunResult) : EndpointResult SqlmapResponse :=
  .ok { parsed := parse_sqlmap_output r.stdout, raw_output := r.stdout }

/-- Response of the nikto endpoint. -/
structure NiktoResponse where
  parsed : NiktoParsed
  raw_output : String
deriving Repr, DecidableEq

/-- nikto_scan after run_command returned (main.py lines 460-466): the
stdout is parsed unconditionally, with no exit-code check. -/
def nikto_scan (r : RunResult) : EndpointResult NiktoResponse :=
  .ok { parsed := parse_nikto_output r.stdout, raw_output := r.stdout }

/-- Response of the whatweb endpoint (main.py lines 486-496). -/
structure WhatwebResponse (J : Type) where
  results : List J
  raw_output : String
  error : Option String
deriving Repr, DecidableEq

/-- The non-blank lines whatweb_scan decodes (main.py lines 483-484):
stdout stripped, split on newlines, keeping lines with non-blank content. -/
def pyNonBlankLines (stdout : String) : List String :=
  (pySplitNL (pyStrip stdout)).filter (fun l => pyStrip l ≠ "")

/-- The JSON-decoding stage of whatweb_scan (main.py lines 481-496),
parameterized by the json.loads decoder: every non-blank line is decoded
independently; if any fails, the whole call returns an empty results list
with the error flag instead of raising. -/
def whatweb_parse {J : Type} (loads : String → Option J) (stdout : String) :
    WhatwebResponse J :=
  match pyMapM loads (pyNonBlankLines stdout) with
  | some rs => { results := rs, raw_output := stdout, error := none }
  | none =>
    { results := [], raw_output := stdout,
      error := some "Failed to parse JSON output" }

/-- whatweb_scan after run_command returned (main.py lines 475-496):
non-zero exit raises HTTPException 400 carrying stderr, otherwise the
decoding stage runs. -/
def whatweb_scan {J : Type} (loads : String → Option J) (r : RunResult) :
    EndpointResult (WhatwebResponse J) :=
  if ¬ r.success then
    .httpError 400 ("WhatWeb scan failed: " ++ r.stderr)
  else
    .ok (whatweb_parse loads r.stdout)

/-- Response of the nslookup endpoint. -/
structure NslookupResponse where
  parsed : NslookupParsed
  raw_output : String
deriving Repr, DecidableEq

/-- nslookup_scan after run_command returned (main.py lines 516-526): exit
codes other than 0 and 1 raise HTTPException 400 carrying stderr, otherwise
the stdout is parsed. -/
def nslookup_scan (r : RunResult) : EndpointResult NslookupResponse :=
  if ¬ (r.returncode == 0 || r.returncode == 1) then
    .httpError 400 ("nslookup failed: " ++ r.stderr)
  else
    .ok { parsed := parse_nslookup_output r.stdout, raw_output := r.stdout }

/-- The non-empty stripped lines of the short-mode dig output
(main.py line 557). -/
def pyStrippedLines (stdout : String) : List String :=
  (pySplitNL (pyStrip stdout)).filterMap (fun l =>
    if pyStrip l ≠ "" then some (pyStrip l) else none)

/-- Response of the dig endpoint: short mode returns the raw lines, full
mode the parsed record. -/
inductive DigResponse where
  | short (lines : List String) (raw : String)
  | full (d : DigParsed) (raw : String)
deriving Repr, DecidableEq

/-- dig_scan after run_command returned (main.py lines 549-565): non-zero
exit raises HTTPException 400 carrying stderr; otherwise short mode returns
the trimmed lines and full mode parses the stdout. -/
def dig_scan (short : Bool) (r : RunResult) : EndpointResult DigResponse :=
  if ¬ r.success then
    .httpError 400 ("dig failed: " ++ r.stderr)
  else if short then
    .ok (.short (pyStrippedLines r.stdout) r.stdout)
  else
    match parse_dig_output r.stdout with
    | some d => .ok (.full d r.stdout)
    | none => .raised

/-- Response of the xsstrike endpoint: raw_stderr is present only when
stderr was non-empty. -/
structure XssResponse where
  parsed : XssParsed
  raw_output : String
  raw_stderr : Option String
deriving Repr, DecidableEq

/-- xsstrike_scan after run_command returned (main.py lines 588-596): the
concatenation of stdout and stderr is parsed unconditionally, with no
exit-code check. -/
def xsstrike_scan (σ : List String → List String) (r : RunResult) :
    EndpointResult XssResponse :=
  .ok { parsed := parse_xsstrike_output σ (r.stdout ++ r.stderr),
        raw_output := r.stdout,
        raw_stderr := if r.stderr ≠ "" then some r.stderr else none }

/-! ## Engine lemmas -/

theorem head?_mem {α : Type} {l : List α} {a : α} (h : l.head? = some a) :
    a ∈ l := by
  cases l with
  | nil => simp at h
  | cons b t => simp at h; simp [h]

theorem mem_catResults {f : List Char → Groups → List (List Char × Groups)}
    {l : List (List Char × Groups)} {q : List Char × Groups} :
    q ∈ catResults f l ↔ ∃ r ∈ l, q ∈ f r.1 r.2 := by
  induction l with
  | nil => simp [catResults]
  | cons a as ih => simp [catResults, ih]

theorem lazyStar_mem {p : Char → Bool} :
    ∀ {s t : List Char}, t ∈ lazyStar p s →
      ∃ pre, s = pre ++ t ∧ ∀ c ∈ pre, p c = true := by
  intro s
  induction s with
  | nil =>
    intro t ht
    simp [lazyStar] at ht
    exact ⟨[], by simp [ht]⟩
  | cons c r ih =>
    intro t ht
    simp only [lazyStar, List.mem_cons] at ht
    rcases ht with h | h
    · exact ⟨[], by simp [h]⟩
    · by_cases hp : p c
      · simp [hp] at h
        obtain ⟨pre, hpre, hall⟩ := ih h
        refine ⟨c :: pre, by simp [hpre], ?_⟩
        intro x hx
        rcases List.mem_cons.mp hx with rfl | hx
        · exact hp
        · exact hall x hx
      · simp [hp] at h

theorem stripPre_suffix :
    ∀ {l : List Char} {ci : Bool} {s r : List Char},
      stripPre l ci s = some r → r <:+ s := by
  intro l
  induction l with
  | nil => intro ci s r h; simp [stripPre] at h; simp [h]
  | cons p ps ih =>
    intro ci s r h
    cases s with
    | nil => simp [stripPre] at h
    | cons c cs =>
      simp only [stripPre] at h
      split at h
      · exact (ih h).trans (List.suffix_cons c cs)
      · simp at h

theorem stripPre_groups {l : List Char} {ci : Bool} {s : List Char}
    {g : Groups} {q : List Char × Groups} (h : q ∈ mres (.str l ci) s g) :
    q.2 = g := by
  simp only [mres] at h
  split at h
  · simp at h; simp [h]
  · simp at h

theorem mres_suffix :
    ∀ (re : RE) {s : List Char} {g : Groups} {q : List Char × Groups},
      q ∈ mres re s g → q.1 <:+ s := by
  intro re
  induction re with
  | eps => intro s g q h; simp [mres] at h; simp [h]
  | ch p =>
    intro s g q h
    cases s with
    | nil => simp [mres] at h
    | cons c r =>
      simp only [mres] at h
      split at h
      · simp at h; simp [h, List.suffix_cons]
      · simp at h
  | str l ci =>
    intro s g q h
    simp only [mres] at h
    split at h
    · next r hr =>
      simp at h
      subst h
      exact stripPre_suffix hr
    · simp at h
  | cat a b iha ihb =>
    intro s g q h
    simp only [mres] at h
    obtain ⟨r, hr, hq⟩ := mem_catResults.mp h
    exact (ihb hq).trans (iha hr)
  | alt a b iha ihb =>
    intro s g q h
    simp only [mres, List.mem_append] at h
    rcases h with h | h
    · exact iha h
    · exact ihb h
  | opt r ih =>
    intro s g q h
    simp only [mres, List.mem_append] at h
    rcases h with h | h
    · exact ih h
    · simp at h; simp [h]
  | starL p =>
    intro s g q h
    simp only [mres, List.mem_map] at h
    obtain ⟨t, ht, rfl⟩ := h
    obtain ⟨pre, rfl, -⟩ := lazyStar_mem ht
    exact ⟨pre, rfl⟩
  | starG p =>
    intro s g q h
    simp only [mres, List.mem_map, List.mem_reverse] at h
    obtain ⟨t, ht, rfl⟩ := h
    obtain ⟨pre, rfl, -⟩ := lazyStar_mem ht
    exact ⟨pre, rfl⟩
  | plusL p =>
    intro s g q h
    cases s with
    | nil => simp [mres] at h
    | cons c r =>
      simp only [mres] at h
      split at h
      · simp only [List.mem_map] at h
        obtain ⟨t, ht, rfl⟩ := h
        obtain ⟨pre, rfl, -⟩ := lazyStar_mem ht
        exact List.IsSuffix.trans ⟨pre, rfl⟩ (List.suffix_cons c _)
      · simp at h
  | plusG p =>
    intro s g q h
    cases s with
    | nil => simp [mres] at h
    | cons c r =>
      simp only [mres] at h
      split at h
      · simp only [List.mem_map, List.mem_reverse] at h
        obtain ⟨t, ht, rfl⟩ := h
        obtain ⟨pre, rfl, -⟩ := lazyStar_mem ht
        exact List.IsSuffix.trans ⟨pre, rfl⟩ (List.suffix_cons c _)
      · simp at h
  | group n r ih =>
    intro s g q h
    simp only [mres, List.mem_map] at h
    obtain ⟨q0, hq0, rfl⟩ := h
    simpa using ih hq0
  | dollar =>
    intro s g q h
    simp only [mres] at h
    split at h
    · simp at h; simp [h]
    · simp at h
  | endZ =>
    intro s g q h
    simp only [mres] at h
    split at h
    · simp at h; simp [h]
    · simp at h

/-- The capture-group indices occurring in a pattern. -/
def gIdxs : RE → List Nat
  | .cat a b => gIdxs a ++ gIdxs b
  | .alt a b => gIdxs a ++ gIdxs b
  | .opt r => gIdxs r
  | .group n r => n :: gIdxs r
  | _ => []

theorem getG_cons_ne {m n : Nat} {cap : List Char} {g : Groups}
    (h : m ≠ n) : getG ((m, cap) :: g) n = getG g n := by
  have hb : (m == n) = false := by simp [h]
  simp [getG, List.find?, hb]

theorem getG_cons_self {n : Nat} {cap : List Char} {g : Groups} :
    getG ((n, cap) :: g) n = some cap := by
  simp [getG, List.find?]

theorem mres_getG_eq :
    ∀ (re : RE) {n : Nat}, n ∉ gIdxs re →
      ∀ {s : List Char} {g : Groups} {q : List Char × Groups},
        q ∈ mres re s g → getG q.2 n = getG g n := by
  intro re
  induction re with
  | eps => intro n _ s g q h; simp [mres] at h; simp [h]
  | ch p =>
    intro n _ s g q h
    cases s with
    | nil => simp [mres] at h
    | cons c r =>
      simp only [mres] at h
      split at h
      · simp at h; simp [h]
      · simp at h
  | str l ci =>
    intro n _ s g q h
    rw [stripPre_groups h]
  | cat a b iha ihb =>
    intro n hn s g q h
    simp only [gIdxs, List.mem_append] at hn
    push_neg at hn
    simp only [mres] at h
    obtain ⟨r, hr, hq⟩ := mem_catResults.mp h
    rw [ihb hn.2 hq, iha hn.1 hr]
  | alt a b iha ihb =>
    intro n hn s g q h
    simp only [gIdxs, List.mem_append] at hn
    push_neg at hn
    simp only [mres, List.mem_append] at h
    rcases h with h | h
    · exact iha hn.1 h
    · exact ihb hn.2 h
  | opt r ih =>
    intro n hn s g q h
    simp only [gIdxs] at hn
    simp only [mres, List.mem_append] at h
    rcases h with h | h
    · exact ih hn h
    · simp at h; simp [h]
  | starL p =>
    intro n _ s g q h
    simp only [mres, List.mem_map] at h
    obtain ⟨t, -, rfl⟩ := h
    rfl
  | starG p =>
    intro n _ s g q h
    simp only [mres, List.mem_map, List.mem_reverse] at h
    obtain ⟨t, -, rfl⟩ := h
    rfl
  | plusL p =>
    intro n _ s g q h
    cases s with
    | nil => simp [mres] at h
    | cons c r =>
      simp only [mres] at h
      split at h
      · simp only [List.mem_map] at h
        obtain ⟨t, -, rfl⟩ := h
        rfl
      · simp at h
  | plusG p =>
    intro n _ s g q h
    cases s with
    | nil => simp [mres] at h
    | cons c r =>
      simp only [mres] at h
      split at h
      · simp only [List.mem_map, List.mem_reverse] at h
        obtain ⟨t, -, rfl⟩ := h
        rfl
      · simp at h
  | group m r ih =>
    intro n hn s g q h
    simp only [gIdxs, List.mem_cons] at hn
    push_neg at hn
    simp only [mres, List.mem_map] at h
    obtain ⟨q0, hq0, rfl⟩ := h
    have h1 : getG ((m, s.take (s.length - q0.1.length)) :: q0.2) n = getG q0.2 n :=
      getG_cons_ne (fun e => hn.1 e.symm)
    rw [h1]
    exact ih hn.2 hq0
  | dollar =>
    intro n _ s g q h
    simp only [mres] at h
    split at h
    · simp at h; simp [h]
    · simp at h
  | endZ =>
    intro n _ s g q h
    simp only [mres] at h
    split at h
    · simp at h; simp [h]
    · simp at h

/-- A syntactic witness that every string matched by a pattern must contain
a character satisfying P. -/
inductive Req (P : Char → Prop) : RE → Prop where
  | ch {p : Char → Bool} : (∀ c, p c = true → P c) → Req P (.ch p)
  | plusL {p : Char → Bool} : (∀ c, p c = true → P c) → Req P (.plusL p)
  | plusG {p : Char → Bool} : (∀ c, p c = true → P c) → Req P (.plusG p)
  | catL {a b : RE} : Req P a → Req P (.cat a b)
  | catR {a b : RE} : Req P b → Req P (.cat a b)
  | alt {a b : RE} : Req P a → Req P b → Req P (.alt a b)
  | group {n : Nat} {r : RE} : Req P r → Req P (.group n r)

theorem mres_req {P : Char → Prop} :
    ∀ {re : RE}, Req P re →
      ∀ {s : List Char} {g : Groups} {q : List Char × Groups},
        q ∈ mres re s g → ∃ c ∈ s, P c := by
  intro re hre
  induction hre with
  | ch hp =>
    intro s g q h
    cases s with
    | nil => simp [mres] at h
    | cons c r =>
      simp only [mres] at h
      split at h
      · next hc => exact ⟨c, by simp, hp c hc⟩
      · simp at h
  | plusL hp =>
    intro s g q h
    cases s with
    | nil => simp [mres] at h
    | cons c r =>
      simp only [mres] at h
      split at h
      · next hc => exact ⟨c, by simp, hp c hc⟩
      · simp at h
  | plusG hp =>
    intro s g q h
    cases s with
    | nil => simp [mres] at h
    | cons c r =>
      simp only [mres] at h
      split at h
      · next hc => exact ⟨c, by simp, hp c hc⟩
      · simp at h
  | catL _ ih =>
    intro s g q h
    simp only [mres] at h
    obtain ⟨r, hr, -⟩ := mem_catResults.mp h
    exact ih hr
  | catR _ ih =>
    intro s g q h
    simp only [mres] at h
    obtain ⟨r, hr, hq⟩ := mem_catResults.mp h
    obtain ⟨c, hc, hP⟩ := ih hq
    exact ⟨c, (mres_suffix _ hr).subset hc, hP⟩
  | alt _ _ ih1 ih2 =>
    intro s g q h
    simp only [mres, List.mem_append] at h
    rcases h with h | h
    · exact ih1 h
    · exact ih2 h
  | group _ ih =>
    intro s g q h
    simp only [mres, List.mem_map] at h
    obtain ⟨q0, hq0, -⟩ := h
    exact ih hq0

/-- In a match of a capture group over a greedy plus of a class, the capture
is a non-empty run of characters of the class, pushed onto the bindings. -/
theorem mres_group_plusG {n : Nat} {p : Char → Bool} {s : List Char}
    {g : Groups} {q : List Char × Groups}
    (h : q ∈ mres (.group n (.plusG p)) s g) :
    ∃ cap, q.2 = (n, cap) :: g ∧ cap ≠ [] ∧ ∀ c ∈ cap, p c = true := by
  simp only [mres, List.mem_map] at h
  obtain ⟨q0, hq0, rfl⟩ := h
  cases s with
  | nil => simp [mres] at hq0
  | cons c r =>
    simp only [mres] at hq0
    split at hq0
    · next hc =>
      simp only [List.mem_map, List.mem_reverse] at hq0
      obtain ⟨t, ht, rfl⟩ := hq0
      obtain ⟨pre, rfl, hall⟩ := lazyStar_mem ht
      refine ⟨c :: pre, ?_, by simp, ?_⟩
      · show (n, List.take ((c :: (pre ++ t)).length - t.length) (c :: (pre ++ t))) :: g
          = (n, c :: pre) :: g
        have hlen : (c :: (pre ++ t)).length - t.length = pre.length + 1 := by
          simp only [List.length_cons, List.length_append]
          omega
        rw [hlen, List.take_succ_cons, List.take_left]
      · intro x hx
        rcases List.mem_cons.mp hx with rfl | hx
        · exact hc
        · exact hall x hx
    · simp at hq0

theorem searchFull_spec :
    ∀ {re : RE} {s : List Char} {m : MRes}, searchFull re s = some m →
      m.startSuffix <:+ s ∧ (m.endSuffix, m.groups) ∈ mres re m.startSuffix [] := by
  intro re s
  induction s with
  | nil =>
    intro m h
    simp only [searchFull] at h
    split at h
    · next q hq =>
      cases h
      exact ⟨List.suffix_refl _, head?_mem hq⟩
    · simp at h
  | cons c t ih =>
    intro m h
    simp only [searchFull] at h
    split at h
    · next q hq =>
      cases h
      exact ⟨List.suffix_refl _, head?_mem hq⟩
    · obtain ⟨h1, h2⟩ := ih h
      exact ⟨h1.trans (List.suffix_cons c t), h2⟩

theorem search_spec {re : RE} {s : List Char} {g : Groups}
    (h : search re s = some g) :
    ∃ t rest, t <:+ s ∧ (rest, g) ∈ mres re t [] := by
  simp only [search, Option.map_eq_some'] at h
  obtain ⟨m, hm, rfl⟩ := h
  obtain ⟨h1, h2⟩ := searchFull_spec hm
  exact ⟨m.startSuffix, m.endSuffix, h1, h2⟩

theorem nextPos_suffix {re : RE} {s : List Char} {m : MRes}
    (h : searchFull re s = some m) : nextPos m <:+ s := by
  obtain ⟨h1, h2⟩ := searchFull_spec h
  have hend : m.endSuffix <:+ m.startSuffix := mres_suffix _ h2
  unfold nextPos
  split
  · exact (List.drop_suffix 1 m.startSuffix).trans h1
  · exact hend.trans h1

theorem findAllF_mem :
    ∀ (f : Nat) {re : RE} {s : List Char} {g : Groups},
      g ∈ findAllF re f s →
      ∃ t rest, t <:+ s ∧ (rest, g) ∈ mres re t [] := by
  intro f
  induction f with
  | zero => intro re s g h; simp [findAllF] at h
  | succ f ih =>
    intro re s g h
    simp only [findAllF] at h
    split at h
    · simp at h
    · next m hm =>
      rcases List.mem_cons.mp h with rfl | h
      · obtain ⟨h1, h2⟩ := searchFull_spec hm
        exact ⟨m.startSuffix, m.endSuffix, h1, h2⟩
      · obtain ⟨t, rest, ht, hq⟩ := ih h
        exact ⟨t, rest, ht.trans (nextPos_suffix hm), hq⟩

theorem findAll_mem {re : RE} {s : List Char} {g : Groups}
    (h : g ∈ findAll re s) :
    ∃ t rest, t <:+ s ∧ (rest, g) ∈ mres re t [] :=
  findAllF_mem _ h

/-- A pattern that must consume a character satisfying P finds no match in
a string having none. -/
theorem findAll_nil_of_req {P : Char → Prop} {re : RE} (hre : Req P re)
    {s : List Char} (h : ∀ c ∈ s, ¬ P c) : findAll re s = [] := by
  rw [List.eq_nil_iff_forall_not_mem]
  intro g hg
  obtain ⟨t, rest, hts, hm⟩ := findAll_mem hg
  obtain ⟨c, hct, hPc⟩ := mres_req hre hm
  exact h c (hts.subset hct) hPc

/-! ## Helper lemmas on Python-style combinators -/

theorem pyMapM_isSome {α β : Type} {f : α → Option β} :
    ∀ {l : List α}, (∀ x ∈ l, (f x).isSome) → (pyMapM f l).isSome := by
  intro l
  induction l with
  | nil => intro _; simp [pyMapM]
  | cons a t ih =>
    intro h
    have ha := h a (by simp)
    simp only [pyMapM]
    cases hfa : f a with
    | none => rw [hfa] at ha; simp at ha
    | some b =>
      have ht := ih (fun x hx => h x (by simp [hx]))
      cases hmt : pyMapM f t with
      | none => rw [hmt] at ht; simp at ht
      | some bs => simp [hmt]

theorem pyMapM_none_of_mem {α β : Type} {f : α → Option β} :
    ∀ {l : List α} {x : α}, x ∈ l → f x = none → pyMapM f l = none := by
  intro l
  induction l with
  | nil => intro x hx; simp at hx
  | cons a t ih =>
    intro x hx hfx
    rcases List.mem_cons.mp hx with rfl | hx
    · simp [pyMapM, hfx]
    · simp only [pyMapM]
      cases hfa : f a with
      | none => rfl
      | some b => simp [ih hx hfx]

theorem length_filterMap_eq {α β : Type} (f : α → Option β) :
    ∀ (l : List α),
      (l.filterMap f).length = (l.filter (fun x => (f x).isSome)).length := by
  intro l
  induction l with
  | nil => simp
  | cons a t ih =>
    cases hfa : f a with
    | none => simp [List.filterMap_cons, List.filter_cons, hfa, ih]
    | some b => simp [List.filterMap_cons, List.filter_cons, hfa, ih]

theorem isSetEnum_dedup : IsSetEnum (fun xs => xs.dedup) :=
  fun xs => ⟨List.nodup_dedup xs, fun _ => List.mem_dedup⟩

theorem isSetEnum_dedupRev : IsSetEnum (fun xs => xs.dedup.reverse) :=
  fun xs => ⟨List.nodup_reverse.mpr (List.nodup_dedup xs),
    fun a => by simp [List.mem_reverse, List.mem_dedup]⟩

theorem IsSetEnum.enum_nil {σ : List String → List String}
    (h : IsSetEnum σ) : σ [] = [] := by
  rw [List.eq_nil_iff_forall_not_mem]
  intro a ha
  have := ((h []).2 a).mp ha
  simp at this

theorem IsSetEnum.enum_perm {σ1 σ2 : List String → List String}
    (h1 : IsSetEnum σ1) (h2 : IsSetEnum σ2) (xs : List String) :
    (σ1 xs).Perm (σ2 xs) :=
  (List.perm_ext_iff_of_nodup (h1 xs).1 (h2 xs).1).mpr
    (fun a => ((h1 xs).2 a).trans ((h2 xs).2 a).symm)

/-! ## Totality of the fallible parsers -/

theorem capture_digits_head {n : Nat} {p : Char → Bool} {B : RE}
    {s : List Char} {g : Groups} {q : List Char × Groups}
    (h : q ∈ mres (.cat (.group n (.plusG p)) B) s g) (hB : n ∉ gIdxs B) :
    ∃ cap, getG q.2 n = some cap ∧ cap ≠ [] ∧ ∀ c ∈ cap, p c = true := by
  simp only [mres] at h
  obtain ⟨r, hr, hq⟩ := mem_catResults.mp h
  obtain ⟨cap, hcap, hne, hall⟩ := mres_group_plusG hr
  refine ⟨cap, ?_, hne, hall⟩
  rw [mres_getG_eq B hB hq, hcap, getG_cons_self]

theorem port_match_digits {s : List Char} {g : Groups}
    (h : g ∈ findAll portPattern s) :
    getGrp g 1 ≠ [] ∧ ∀ c ∈ getGrp g 1, Char.isDigit c := by
  obtain ⟨t, rest, -, hm⟩ := findAll_mem h
  have hm' : (rest, g) ∈ mres (.cat (.group 1 (.plusG psDigit))
      (rcat [.ch (fun c => c == '/'), .group 2 (.plusG psWord), .plusG psSpace,
        .group 3 (.plusG psWord), .plusG psSpace, .group 4 (.plusL psDot),
        .alt (.ch (fun c => c == '\n')) .dollar])) t [] := hm
  obtain ⟨cap, hcap, hne, hall⟩ := capture_digits_head hm' (by decide)
  have hg : getGrp g 1 = cap := by simp [getGrp, hcap]
  rw [hg]
  exact ⟨hne, hall⟩

theorem digQueryTime_digits {s : List Char} {g : Groups}
    (h : search digQueryTimePattern s = some g) :
    getGrp g 1 ≠ [] ∧ ∀ c ∈ getGrp g 1, Char.isDigit c := by
  obtain ⟨t, rest, -, hm⟩ := search_spec h
  have hm' : (rest, g) ∈ catResults
      (mres (.cat (.group 1 (.plusG psDigit)) (rcat [rstr " msec"])))
      (mres (.str (";; Query time: ").data false) t []) := hm
  obtain ⟨r1, hr1, hq1⟩ := mem_catResults.mp hm'
  rw [stripPre_groups hr1] at hq1
  obtain ⟨cap, hcap, hne, hall⟩ := capture_digits_head hq1 (by decide)
  have hg : getGrp g 1 = cap := by simp [getGrp, hcap]
  rw [hg]
  exact ⟨hne, hall⟩

theorem pyInt_isSome {s : String} (h1 : s.data ≠ [])
    (h2 : ∀ c ∈ s.data, Char.isDigit c) : (pyInt? s).isSome := by
  unfold pyInt?
  rw [if_pos (And.intro h1 (List.all_eq_true.mpr h2))]
  rfl

theorem parse_nmap_output_isSome (s : String) :
    (parse_nmap_output s).isSome := by
  unfold parse_nmap_output
  cases hh : findall1 hostPattern s with
  | nil => simp
  | cons a t =>
    have hall : ∀ g ∈ findAll portPattern s.data, (portEntryOf g).isSome := by
      intro g hg
      obtain ⟨hne, hdig⟩ := port_match_digits hg
      have hi : (pyInt? (String.mk (getGrp g 1))).isSome :=
        pyInt_isSome hne hdig
      obtain ⟨v, hv⟩ := Option.isSome_iff_exists.mp hi
      simp [portEntryOf, hv]
    obtain ⟨pes, hpes⟩ :=
      Option.isSome_iff_exists.mp (pyMapM_isSome hall)
    simp [hpes]

theorem parse_dig_output_isSome (s : String) :
    (parse_dig_output s).isSome := by
  unfold parse_dig_output
  cases hq : search digQueryTimePattern s.data with
  | none => simp
  | some g =>
    obtain ⟨hne, hdig⟩ := digQueryTime_digits hq
    have hi : (pyInt? (String.mk (getGrp g 1))).isSome :=
      pyInt_isSome hne hdig
    obtain ⟨v, hv⟩ := Option.isSome_iff_exists.mp hi
    simp [hv]

theorem parse_dig_answer {s : String} {d : DigParsed}
    (h : parse_dig_output s = some d) :
    d.answer = match digAnswerSection s with
      | none => []
      | some sec => (answerLinesOf sec).filterMap mkDigAnswer := by
  unfold parse_dig_output at h
  cases hq : search digQueryTimePattern s.data with
  | none =>
    rw [hq] at h
    simp only [Option.some_inj] at h
    rw [← h]
  | some g =>
    rw [hq] at h
    simp only [Option.map_eq_some'] at h
    obtain ⟨n, -, hrec⟩ := h
    rw [← hrec]

/-! ## Claims -/

/-- Claim C1, counterexample: the claim asserts that every tool other than
the DNS basic lookup, fingerprinting and CMS tools surfaces a non-zero exit
as an HTTP 400 failure without invoking the parser; but the sqlmap endpoint,
given a run that exited with code 1, invokes its parser and returns an
ordinary success response. -/
theorem c1_counterexample :
    (1 : Int) ≠ 0 ∧
    sqlmap_scan { stdout := "", stderr := "boom", returncode := 1 }
      = .ok { parsed := { vulnerable := false, injection_points := [],
                            databases := [], findings := [] },
              raw_output := "" } := by
  exact ⟨by decide, rfl⟩

/-- Claim C1, amended: of the tools the claim covers, only the network-scan
(nmap) and DNS-detailed (dig) endpoints surface a non-zero exit code as an
HTTP 400 failure carrying stderr without invoking the parser; the
injection-scan (sqlmap), web-server-scan (nikto) and XSS-scan (xsstrike)
endpoints invoke their parsers and return normally whatever the exit code. -/
theorem c1_exit_code_policy (short : Bool) (σ : List String → List String)
    (r : RunResult) (h : r.returncode ≠ 0) :
    nmap_scan r = .httpError 400 ("Nmap scan failed: " ++ r.stderr) ∧
    dig_scan short r = .httpError 400 ("dig failed: " ++ r.stderr) ∧
    (∃ v, sqlmap_scan r = .ok v) ∧
    (∃ v, nikto_scan r = .ok v) ∧
    (∃ v, xsstrike_scan σ r = .ok v) := by
  have hs : r.success = false := by
    simp [RunResult.success]
    exact h
  refine ⟨?_, ?_, ⟨_, rfl⟩, ⟨_, rfl⟩, ⟨_, rfl⟩⟩
  · simp [nmap_scan, hs]
  · simp [dig_scan, hs]

/-- Witness for the amended claim C1 at a concrete failed run. -/
theorem c1_exit_code_policy_witness :
    nmap_scan { stdout := "", stderr := "boom", returncode := 1 }
      = .httpError 400 ("Nmap scan failed: " ++ "boom") ∧
    dig_scan false { stdout := "", stderr := "boom", returncode := 1 }
      = .httpError 400 ("dig failed: " ++ "boom") ∧
    (∃ v, sqlmap_scan { stdout := "", stderr := "boom", returncode := 1 }
      = .ok v) ∧
    (∃ v, nikto_scan { stdout := "", stderr := "boom", returncode := 1 }
      = .ok v) ∧
    (∃ v, xsstrike_scan (fun xs => xs.dedup)
      { stdout := "", stderr := "boom", returncode := 1 } = .ok v) :=
  c1_exit_code_policy false (fun xs => xs.dedup) _ (by decide)

/-- Claim C2, counterexample: the claim asserts that on timeout the executor
returns an ExecutionResult with timedOut set rather than raising; but
run_command raises an HTTP 408 request-timeout error (detail
"Command timeout") on timeout, and the dict it returns on completion has no
timedOut field at all. -/
theorem c2_counterexample :
    run_command ProcOutcome.timedOut = .httpError 408 "Command timeout" := rfl

/-- Claim C2, amended: when the spawned process exceeds the wall-clock
timeout the executor raises an HTTP 408 request-timeout error instead of
returning; on completion it returns the captured streams and exit code, and
on a start failure it raises an HTTP 500 error. -/
theorem c2_timeout_policy :
    (∀ out err code, run_command (.completed out err code)
        = .ok { stdout := out, stderr := err, returncode := code }) ∧
    run_command .timedOut = .httpError 408 "Command timeout" ∧
    (∀ msg, run_command (.startFailure msg)
        = .httpError 500 ("Command execution failed: " ++ msg)) :=
  ⟨fun _ _ _ => rfl, rfl, fun _ => rfl⟩

/-- Claim C3: the network-scan, DNS-detailed and CMS-scan output parsers are
total: on every string input they return a normalized result and never
raise (the fallible int() conversions always receive the non-empty digit
strings their patterns guarantee, and the CMS parser has no fallible
operation, so its totality holds by construction). -/
theorem c3_parsers_total (σ : List String → List String) (s : String) :
    (parse_nmap_output s).isSome ∧ (parse_dig_output s).isSome ∧
      ∃ w, parse_wpscan_output σ s = w :=
  ⟨parse_nmap_output_isSome s, parse_dig_output_isSome s, ⟨_, rfl⟩⟩

/-- Claim C4: whenever any non-blank line of the fingerprint (whatweb)
output fails to decode as JSON, the decode stage returns the empty results
list together with the explicit parse-failure indicator — never a partial
list and never an exception. -/
theorem c4_whatweb_decode_failure {J : Type} (loads : String → Option J)
    (stdout : String)
    (h : ∃ l ∈ pyNonBlankLines stdout, loads l = none) :
    whatweb_parse loads stdout =
      { results := [], raw_output := stdout,
        error := some "Failed to parse JSON output" } := by
  obtain ⟨l, hl, hnone⟩ := h
  unfold whatweb_parse
  rw [pyMapM_none_of_mem hl hnone]

/-- Witness for claim C4: a decoder rejecting the single non-blank line. -/
theorem c4_whatweb_decode_failure_witness :
    whatweb_parse (fun _ => (none : Option Unit)) "not json"
      = { results := [], raw_output := "not json",
          error := some "Failed to parse JSON output" } :=
  c4_whatweb_decode_failure _ _ ⟨"not json", by decide, rfl⟩

/-- Claim C5: the DNS basic lookup endpoint treats exit codes 0 and 1 as
valid completions whose output is parsed and returned, and surfaces every
exit code at least 2 as an HTTP 400 failure without invoking the parser. -/
theorem c5_nslookup_exit_policy (r : RunResult) :
    (r.returncode = 0 ∨ r.returncode = 1 →
      nslookup_scan r = .ok { parsed := parse_nslookup_output r.stdout,
                              raw_output := r.stdout }) ∧
    (2 ≤ r.returncode →
      nslookup_scan r = .httpError 400 ("nslookup failed: " ++ r.stderr)) := by
  constructor
  · intro h
    rcases h with h | h <;> simp [nslookup_scan, h]
  · intro h
    have h0 : (r.returncode == 0) = false := by
      simp
      omega
    have h1 : (r.returncode == 1) = false := by
      simp
      omega
    simp [nslookup_scan, h0, h1]

/-- Witness for claim C5 at exit codes 1 and 2. -/
theorem c5_nslookup_exit_policy_witness :
    nslookup_scan { stdout := "x", stderr := "", returncode := 1 }
      = .ok { parsed := parse_nslookup_output "x", raw_output := "x" } ∧
    nslookup_scan { stdout := "", stderr := "boom", returncode := 2 }
      = .httpError 400 ("nslookup failed: " ++ "boom") :=
  ⟨(c5_nslookup_exit_policy _).1 (Or.inr rfl),
   (c5_nslookup_exit_policy _).2 (by decide)⟩

/-- Claim C7: whatever the input, the XSS-scan parser returns at most 10
payloads and 20 endpoints, and the CMS-scan text parser returns at most 10
vulnerabilities, 10 plugins and 10 users. -/
theorem c7_parser_caps (σ : List String → List String) (s : String) :
    (parse_xsstrike_output σ s).payloads.length ≤ 10 ∧
    (parse_xsstrike_output σ s).endpoints.length ≤ 20 ∧
    (parse_wpscan_output σ s).vulnerabilities.length ≤ 10 ∧
    (parse_wpscan_output σ s).plugins.length ≤ 10 ∧
    (parse_wpscan_output σ s).users.length ≤ 10 := by
  refine ⟨?_, ?_, ?_, ?_, ?_⟩ <;>
    simp [parse_xsstrike_output, parse_wpscan_output, List.length_take_le]

/-- Claim C6: within a matched answer section of the DNS-detailed output,
every kept line with at least 5 whitespace-separated columns produces a
record whose data field is the space-join of the columns from the fifth
onward, and lines with fewer than 5 columns produce no record (the record
count equals the count of kept lines with at least 5 columns). -/
theorem c6_dig_answer_columns (s : String) (d : DigParsed)
    (h : parse_dig_output s = some d) :
    (digAnswerSection s = none → d.answer = []) ∧
    (∀ sec, digAnswerSection s = some sec →
      (∀ rec ∈ d.answer, ∃ line ∈ answerLinesOf sec,
        5 ≤ (pySplitWS line).length ∧
        rec = { name := (pySplitWS line).getD 0 "",
                ttl := (pySplitWS line).getD 1 "",
                cls := (pySplitWS line).getD 2 "",
                typ := (pySplitWS line).getD 3 "",
                data := " ".intercalate ((pySplitWS line).drop 4) }) ∧
      d.answer.length
        = ((answerLinesOf sec).filter
            (fun l => decide (5 ≤ (pySplitWS l).length))).length) := by
  have ha := parse_dig_answer h
  constructor
  · intro hn
    rw [ha, hn]
  · intro sec hs
    rw [ha, hs]
    constructor
    · intro rec hrec
      obtain ⟨line, hline, hml⟩ := List.mem_filterMap.mp hrec
      refine ⟨line, hline, ?_⟩
      unfold mkDigAnswer at hml
      by_cases h5 : 5 ≤ (pySplitWS line).length
      · rw [if_pos h5] at hml
        simp only [Option.some_inj] at hml
        exact ⟨h5, hml.symm⟩
      · rw [if_neg h5] at hml
        simp at hml
    · rw [length_filterMap_eq]
      congr 1
      apply List.filter_congr
      intro l _
      by_cases h5 : 5 ≤ (pySplitWS l).length
      · simp [mkDigAnswer, h5]
      · simp [mkDigAnswer, h5]

/-- Witness input for claim C6: an answer section with one 7-column line
and one 2-column line. -/
def exDig : String :=
  ";; ANSWER SECTION:\nexample.com. 300 IN A 1.2.3.4 x\nshort line\n\nrest"

/-- The parse of the witness input for claim C6. -/
def exDigParsed : DigParsed :=
  { question := none,
    answer := [{ name := "example.com.", ttl := "300", cls := "IN",
                 typ := "A", data := "1.2.3.4 x" }],
    authority := [], additional := [], queryTimeMs := none, server := none }

/-- Witness for claim C6 on the concrete answer section. -/
theorem c6_dig_answer_columns_witness :
    parse_dig_output exDig = some exDigParsed ∧
    exDigParsed.answer.length =
      ((answerLinesOf "\nexample.com. 300 IN A 1.2.3.4 x\nshort line").filter
        (fun l => decide (5 ≤ (pySplitWS l).length))).length :=
  ⟨rfl, ((c6_dig_answer_columns exDig exDigParsed rfl).2 _ rfl).2⟩

/-- The XSS-scan payload pattern cannot match without consuming a literal
backslash. -/
theorem req_payload_backslash :
    Req (fun c => c = '\\') xssPayloadPattern := by
  show Req (fun c => c = '\\')
    (.cat (.alt (rstrCI "Payload") (rstrCI "Tested"))
      (.cat (.alt (rstr ":")
          (rcat [.ch (fun c => c == '\\'), .plusG psS, rstrCI "with"]))
        (.cat (.ch (fun c => c == '\\'))
          (.cat (.plusG psS) (.cat (.group 1 (.plusG psDot)) .eps)))))
  exact Req.catR (Req.catR (Req.catL (Req.ch (fun c hc => eq_of_beq hc))))

/-- The XSS-scan endpoint pattern cannot match without consuming a literal
backslash. -/
theorem req_endpoint_backslash :
    Req (fun c => c = '\\') xssEndpointPattern := by
  show Req (fun c => c = '\\')
    (.cat (.alt (rstrCI "Testing") (rstrCI "Scanning"))
      (.cat (.starL psDot)
        (.cat (.alt (rstrCI "endpoint") (.alt (rstrCI "url") (rstrCI "parameter")))
          (.cat (.starL psDot)
            (.cat (.ch (fun c => c == ':'))
              (.cat (.ch (fun c => c == '\\'))
                (.cat (.starG psS) (.cat (.group 1 (.plusG psDot)) .eps))))))))
  exact Req.catR (Req.catR (Req.catR (Req.catR (Req.catR
    (Req.catL (Req.ch (fun c hc => eq_of_beq hc)))))))

/-- Claim C9: on any input containing no backslash character, the XSS-scan
parser returns empty payload and endpoint lists, because its payload and
endpoint patterns (raw strings with doubled backslash escapes) require a
literal backslash in the matched text. -/
theorem c9_xss_no_backslash_empty (σ : List String → List String) (s : String)
    (hσ : IsSetEnum σ) (h : ∀ c ∈ s.data, c ≠ '\\') :
    (parse_xsstrike_output σ s).payloads = [] ∧
    (parse_xsstrike_output σ s).endpoints = [] := by
  have hp : findAll xssPayloadPattern s.data = [] :=
    findAll_nil_of_req req_payload_backslash h
  have he : findAll xssEndpointPattern s.data = [] :=
    findAll_nil_of_req req_endpoint_backslash h
  constructor <;>
    simp [parse_xsstrike_output, findall1, hp, he, hσ.enum_nil]

/-- Witness for claim C9 on a backslash-free input. -/
theorem c9_xss_no_backslash_empty_witness :
    IsSetEnum (fun xs => xs.dedup) ∧
    (parse_xsstrike_output (fun xs => xs.dedup) "Payload: hello").payloads = [] ∧
    (parse_xsstrike_output (fun xs => xs.dedup) "Payload: hello").endpoints = [] :=
  ⟨isSetEnum_dedup,
   (c9_xss_no_backslash_empty _ _ isSetEnum_dedup (by decide)).1,
   (c9_xss_no_backslash_empty _ _ isSetEnum_dedup (by decide)).2⟩

/-- Claim C10: the network-scan parser returns at most one host entry; with
no host line the hosts list is empty, and with at least one host line the
single entry carries the first matched host name together with every
port-line match found anywhere in the input. -/
theorem c10_nmap_single_host (s : String) (d : NmapParsed)
    (h : parse_nmap_output s = some d) :
    d.hosts.length ≤ 1 ∧
    (findall1 hostPattern s = [] → d.hosts = []) ∧
    (∀ hm t, findall1 hostPattern s = hm :: t →
      ∃ pes, pyMapM portEntryOf (findAll portPattern s.data) = some pes ∧
        d.hosts = [{ host := hm, ports := pes }]) := by
  unfold parse_nmap_output at h
  cases hh : findall1 hostPattern s with
  | nil =>
    rw [hh] at h
    simp only [Option.some_inj] at h
    refine ⟨?_, fun _ => ?_, ?_⟩
    · rw [← h]
      simp
    · rw [← h]
    · intro hm t hcon
      simp at hcon
  | cons a t0 =>
    rw [hh] at h
    simp only [Option.map_eq_some'] at h
    obtain ⟨pes, hpes, hrec⟩ := h
    refine ⟨?_, ?_, ?_⟩
    · rw [← hrec]
      simp
    · intro hnil
      simp at hnil
    · intro hm t hcon
      injection hcon with h1 h2
      subst h1
      exact ⟨pes, hpes, by rw [← hrec]⟩

/-- Witness input for claim C10: two host lines, each followed by one port
line. -/
def exNmap : String :=
  "Nmap scan report for a\nHost is up\n1/tcp open x\nNmap scan report for b\n2/udp closed y\n"

/-- The parse of the witness input for claim C10: a single host entry
carrying the first host name and both port lines. -/
def exNmapParsed : NmapParsed :=
  { hosts := [{ host := "a",
                ports := [{ port := 1, protocol := "tcp", state := "open",
                            service := "x" },
                          { port := 2, protocol := "udp", state := "closed",
                            service := "y" }] }],
    summaryStatus := some "up" }

/-- Witness for claim C10: the second host's port line lands in the first
and only host entry. -/
theorem c10_nmap_single_host_witness :
    parse_nmap_output exNmap = some exNmapParsed ∧
    findall1 hostPattern exNmap = ["a", "b"] ∧
    (∃ pes, pyMapM portEntryOf (findAll portPattern exNmap.data) = some pes ∧
      exNmapParsed.hosts = [{ host := "a", ports := pes }]) :=
  ⟨rfl, rfl, (c10_nmap_single_host exNmap exNmapParsed rfl).2.2 "a" ["b"] rfl⟩

/-- Witness input for claim C8: two distinct payload matches. -/
def cexXssInput : String := "Payload:\\s A\nPayload:\\s B"

/-- Claim C8, counterexample: the XSS-scan parser feeds its matches through
Python's list(set(...)), whose enumeration order the language does not fix
across interpreter processes; two enumeration orders that both satisfy the
set contract yield different parser outputs on the same input, so the output
is not a function of the input alone. -/
theorem c8_counterexample :
    IsSetEnum (fun xs => xs.dedup) ∧
    IsSetEnum (fun xs => xs.dedup.reverse) ∧
    parse_xsstrike_output (fun xs => xs.dedup) cexXssInput
      ≠ parse_xsstrike_output (fun xs => xs.dedup.reverse) cexXssInput :=
  ⟨isSetEnum_dedup, isSetEnum_dedupRev, by decide⟩

/-- Claim C8, amended: the parsers are deterministic up to the set
enumeration order: fields not built through list(set(...)) agree for any two
enumerations, the deduplicated lists agree up to permutation, and the capped
set-derived lists agree in length. -/
theorem c8_determinism_up_to_set_order (σ1 σ2 : List String → List String)
    (h1 : IsSetEnum σ1) (h2 : IsSetEnum σ2) (s : String) :
    (parse_xsstrike_output σ1 s).vulnerable
      = (parse_xsstrike_output σ2 s).vulnerable ∧
    (parse_xsstrike_output σ1 s).vulnerabilities.Perm
      (parse_xsstrike_output σ2 s).vulnerabilities ∧
    (parse_xsstrike_output σ1 s).payloads.length
      = (parse_xsstrike_output σ2 s).payloads.length ∧
    (parse_xsstrike_output σ1 s).endpoints.length
      = (parse_xsstrike_output σ2 s).endpoints.length ∧
    (parse_wpscan_output σ1 s).vulnerabilities
      = (parse_wpscan_output σ2 s).vulnerabilities ∧
    (parse_wpscan_output σ1 s).plugins = (parse_wpscan_output σ2 s).plugins ∧
    (parse_wpscan_output σ1 s).version = (parse_wpscan_output σ2 s).version ∧
    (parse_wpscan_output σ1 s).users.length
      = (parse_wpscan_output σ2 s).users.length := by
  have hperm : ∀ xs, (σ1 xs).Perm (σ2 xs) := h1.enum_perm h2
  refine ⟨?_, ?_, ?_, ?_, rfl, rfl, rfl, ?_⟩
  · simp only [parse_xsstrike_output]
    rw [(hperm (findall1 xssVulnPattern s)).isEmpty_eq]
  · simp only [parse_xsstrike_output]
    exact hperm _
  · simp only [parse_xsstrike_output]
    simp [List.length_take, (hperm (findall1 xssPayloadPattern s)).length_eq]
  · simp only [parse_xsstrike_output]
    simp [List.length_take, (hperm (findall1 xssEndpointPattern s)).length_eq]
  · simp only [parse_wpscan_output]
    simp only [List.length_take]
    rw [(hperm _).length_eq]

/-- Witness for the amended claim C8 at two concrete enumerations. -/
theorem c8_determinism_up_to_set_order_witness :
    (parse_xsstrike_output (fun xs => xs.dedup) cexXssInput).vulnerable
      = (parse_xsstrike_output (fun xs => xs.dedup.reverse) cexXssInput).vulnerable ∧
    (parse_xsstrike_output (fun xs => xs.dedup) cexXssInput).vulnerabilities.Perm
      (parse_xsstrike_output (fun xs => xs.dedup.reverse) cexXssInput).vulnerabilities ∧
    (parse_xsstrike_output (fun xs => xs.dedup) cexXssInput).payloads.length
      = (parse_xsstrike_output (fun xs => xs.dedup.reverse) cexXssInput).payloads.length ∧
    (parse_xsstrike_output (fun xs => xs.dedup) cexXssInput).endpoints.length
      = (parse_xsstrike_output (fun xs => xs.dedup.reverse) cexXssInput).endpoints.length ∧
    (parse_wpscan_output (fun xs => xs.dedup) cexXssInput).vulnerabilities
      = (parse_wpscan_output (fun xs => xs.dedup.reverse) cexXssInput).vulnerabilities ∧
    (parse_wpscan_output (fun xs => xs.dedup) cexXssInput).plugins
      = (parse_wpscan_output (fun xs => xs.dedup.reverse) cexXssInput).plugins ∧
    (parse_wpscan_output (fun xs => xs.dedup) cexXssInput).version
      = (parse_wpscan_output (fun xs => xs.dedup.reverse) cexXssInput).version ∧
    (parse_wpscan_output (fun xs => xs.dedup) cexXssInput).users.length
      = (parse_wpscan_output (fun xs => xs.dedup.reverse) cexXssInput).users.length :=
  c8_determinism_up_to_set_order _ _ isSetEnum_dedup isSetEnum_dedupRev cexXssInput

end ToolsApi
